import Mathlib

/-!
Verification of the bracket-balance scanner in `check_syntax.py`.

The Python function `check_balance` walks the input line by line and
character by character, tracking four boolean lexical flags
(`in_string` with its `string_char`, `in_comment` for `//`,
`in_multiline_comment` for block comments) and a stack of open
delimiter frames `(char, line, col)` with 1-based positions.  It
reports the first unexpected or mismatched closer (halting the scan),
or at end of input the unclosed-opener summary, or success.

The embedding below mirrors the source directly: `stepChar` is the body
of the inner `while` loop acting on the current character `c`, the rest
of the current line `rest`, the 0-based column `j` and the mutable
state; it returns either a halting diagnostic or the updated state
together with how many characters the loop body consumed (`j` advanced
by 1 or 2).  `scanLine` iterates `stepChar` over one line, `scanLines`
iterates over the lines resetting `in_comment` at each line boundary
(source line 77), and `check_balance` adds the end-of-input reporting
(source lines 79-85).  `splitlines` models Python's
`str.splitlines()` for inputs that use only `\n` line terminators.
-/

namespace CheckSyntax

/-- One diagnostic frame: delimiter character, 1-based line, 1-based column. -/
abbrev Frame := Char × Nat × Nat

/-- Outcome of a scan, one constructor per message printed by the source. -/
inductive Result where
  | ok : Result
  | unexpectedCloser (char : Char) (line col : Nat) : Result
  | mismatchedCloser (char : Char) (line col : Nat)
      (expected openerChar : Char) (openerLine openerCol : Nat) : Result
  | unclosedOpener (first : Frame) (totalCount : Nat) (lastFew : List Frame) : Result
  deriving DecidableEq

/-- The mutable state of the scan: the delimiter stack (oldest frame first,
as in the Python list, where `append`/`pop` act on the end) and the four
lexical flags of source lines 11-14. -/
structure ScanState where
  stack : List Frame
  inString : Bool
  stringChar : Char
  inComment : Bool
  inMultilineComment : Bool
  deriving DecidableEq

/-- Initial state (source lines 7, 11-14); `string_char` starts as an
irrelevant placeholder, it is only read while `inString` is set. -/
def initState : ScanState :=
  { stack := [], inString := false, stringChar := ' ',
    inComment := false, inMultilineComment := false }

/-- The dict `{'{': '}', '(': ')', '[': ']'}` of source line 69, made total;
it is only ever applied to opener characters taken from the stack. -/
def expectedCloser (c : Char) : Char :=
  if c = '\x7b' then '\x7d' else if c = '(' then ')' else ']'

/-- The body of the inner `while` loop (source lines 19-74) at current
character `c`, remaining characters of the line `rest`, 0-based column `j`,
line index `i` (0-based).  Returns a halting diagnostic or the new state
paired with the number of characters consumed (how much `j` advanced). -/
def stepChar (i : Nat) (c : Char) (rest : List Char) (j : Nat)
    (st : ScanState) : Except Result (ScanState × Nat) :=
  if st.inComment then
    -- lines 22-26: `j == len(line) - 1` means `rest` is empty
    .ok (if rest.isEmpty then { st with inComment := false } else st, 1)
  else if st.inMultilineComment then
    -- lines 28-33
    if c = '*' ∧ rest.head? = some '/' then
      .ok ({ st with inMultilineComment := false }, 2)
    else
      .ok (st, 1)
  else if st.inString then
    -- lines 35-41
    if c = '\\' then
      .ok (st, 2)
    else if c = st.stringChar then
      .ok ({ st with inString := false }, 1)
    else
      .ok (st, 1)
  else if c = '\x27' ∨ c = '\x22' ∨ c = '\x60' then
    -- lines 44-48
    .ok ({ st with inString := true, stringChar := c }, 1)
  else if c = '/' ∧ rest.head? = some '/' then
    -- lines 51-54: note `j += 1; continue`, only ONE character consumed
    .ok ({ st with inComment := true }, 1)
  else if c = '/' ∧ rest.head? = some '*' then
    -- lines 55-58: likewise only ONE character consumed
    .ok ({ st with inMultilineComment := true }, 1)
  else if c = '\x7b' ∨ c = '(' ∨ c = '[' then
    -- line 61-62: push with 1-based positions
    .ok ({ st with stack := st.stack ++ [(c, i + 1, j + 1)] }, 1)
  else if c = '\x7d' ∨ c = ')' ∨ c = ']' then
    -- lines 63-72
    match st.stack.getLast? with
    | none => .error (.unexpectedCloser c (i + 1) (j + 1))
    | some fr =>
      if c ≠ expectedCloser fr.1 then
        .error (.mismatchedCloser c (i + 1) (j + 1)
          (expectedCloser fr.1) fr.1 fr.2.1 fr.2.2)
      else
        .ok ({ st with stack := st.stack.dropLast }, 1)
  else
    .ok (st, 1)

/-- The inner `while j < len(line)` loop (source lines 17-74) from column
`j` onward: iterate `stepChar`, dropping the extra character when the body
consumed two (when `j` was advanced past the end of the line, the loop
simply exits). -/
def scanLine (i : Nat) : List Char → Nat → ScanState → Except Result ScanState
  | [], _, st => .ok st
  | c :: rest, j, st =>
    match stepChar i c rest j st with
    | .error r => .error r
    | .ok (st', n) =>
      if n = 2 then
        match rest with
        | [] => .ok st'
        | _ :: rest2 => scanLine i rest2 (j + 2) st'
      else
        scanLine i rest (j + 1) st'

/-- The outer `for i, line in enumerate(lines)` loop (source lines 16-77),
starting at line index `i`; `in_comment` is reset after every line
(source line 77). -/
def scanLines : List (List Char) → Nat → ScanState → Except Result ScanState
  | [], _, st => .ok st
  | l :: ls, i, st =>
    match scanLine i l 0 st with
    | .error r => .error r
    | .ok st' => scanLines ls (i + 1) { st' with inComment := false }

/-- The whole of `check_balance` after the file is split into lines:
run the scan and apply the end-of-input policy of source lines 79-85
(`stack[0]`, `len(stack)`, `stack[-5:]`). -/
def check_balance (lines : List (List Char)) : Result :=
  match scanLines lines 0 initState with
  | .error r => r
  | .ok st =>
    match st.stack with
    | [] => .ok
    | first :: _ =>
      .unclosedOpener first st.stack.length
        (st.stack.drop (st.stack.length - 5))

/-- Python's `str.splitlines()` restricted to `\n` terminators: each
newline ends a line, a trailing newline does not create an empty final
line, the empty string has no lines. -/
def splitlinesGo : List Char → List Char → List (List Char)
  | [], acc => [acc.reverse]
  | c :: rest, acc =>
    if c = '\n' then
      match rest with
      | [] => [acc.reverse]
      | _ :: _ => acc.reverse :: splitlinesGo rest []
    else
      splitlinesGo rest (c :: acc)

/-- `content.splitlines()` of source line 8 (for `\n`-terminated input). -/
def splitlines (s : List Char) : List (List Char) :=
  match s with
  | [] => []
  | _ :: _ => splitlinesGo s []

/-- Scan raw text: split into lines, then run `check_balance`. -/
def scan (s : String) : Result :=
  check_balance (splitlines s.data)

/-- `Normal` mode of the specification: all three lexical flags clear. -/
def inNormal (st : ScanState) : Prop :=
  st.inString = false ∧ st.inComment = false ∧ st.inMultilineComment = false

/-- Opening delimiter characters. -/
def isOpener (c : Char) : Prop := c = '\x7b' ∨ c = '(' ∨ c = '['

/-- Closing delimiter characters. -/
def isCloser (c : Char) : Prop := c = '\x7d' ∨ c = ')' ∨ c = ']'

instance (st : ScanState) : Decidable (inNormal st) := by
  unfold inNormal; infer_instance

instance (c : Char) : Decidable (isOpener c) := by
  unfold isOpener; infer_instance

instance (c : Char) : Decidable (isCloser c) := by
  unfold isCloser; infer_instance

example : scan "\x7b\x7d" = .ok := by decide
example : scan "\x7b[()]\x7d" = .ok := by decide
example : scan ")" = .unexpectedCloser ')' 1 1 := by decide
example : scan "(]" = .mismatchedCloser ']' 1 2 ')' '(' 1 1 := by decide
example : scan "\x7b\x7b\x7b" =
    .unclosedOpener ('\x7b', 1, 1) 3
      [('\x7b', 1, 1), ('\x7b', 1, 2), ('\x7b', 1, 3)] := by decide
example : scan "\x22\x7b(\x22" = .ok := by decide
example : scan "// \x7b\nfoo" = .ok := by decide
example : scan "/* \x7b\n\x7d */" = .ok := by decide
example : scan "\x22\\\x22\x7d\x22" = .ok := by decide

example : scan "/*/\x7b" =
    .unclosedOpener ('\x7b', 1, 4) 1 [('\x7b', 1, 4)] := by decide
example : scan "\x22\\\n\x22(" =
    .unclosedOpener ('(', 2, 2) 1 [('(', 2, 2)] := by decide

/-- While `in_comment` is set, the rest of the line is consumed without
touching anything but the `in_comment` flag itself, which is cleared at
the last character of the line. -/
theorem scanLine_inComment (i : Nat) (l : List Char) :
    ∀ (j : Nat) (st : ScanState), st.inComment = true →
      scanLine i l j st =
        .ok (if l.isEmpty then st else { st with inComment := false }) := by
  induction l with
  | nil => intro j st h; rfl
  | cons c rest ih =>
    intro j st h
    cases rest with
    | nil => simp [scanLine, stepChar, h]
    | cons d rest2 =>
      have ihd := ih (j + 1) st h
      simp only [List.isEmpty_cons] at ihd
      simp [scanLine, stepChar, h, ihd]

/-- The loop body advances `j` by one or by two. -/
theorem stepChar_consumed {i : Nat} {c : Char} {rest : List Char} {j : Nat}
    {st st' : ScanState} {n : Nat}
    (h : stepChar i c rest j st = .ok (st', n)) : n = 1 ∨ n = 2 := by
  unfold stepChar at h
  repeat' split at h
  all_goals simp_all

/-- The loop body looks at the rest of the line only through its first
character. -/
theorem stepChar_congr (i : Nat) (c d : Char) (rest rest' : List Char)
    (j : Nat) (st : ScanState) :
    stepChar i c (d :: rest) j st = stepChar i c (d :: rest') j st := rfl

/-- A halting diagnostic produced by the loop body does not depend on the
rest of the line at all. -/
theorem stepChar_error_rest {i : Nat} {c : Char} {rest : List Char} {j : Nat}
    {st : ScanState} {r : Result} (h : stepChar i c rest j st = .error r)
    (rest' : List Char) : stepChar i c rest' j st = .error r := by
  unfold stepChar at h ⊢
  by_cases h1 : st.inComment = true
  · rw [if_pos h1] at h; simp at h
  · by_cases h2 : st.inMultilineComment = true
    · by_cases hx : c = '*' ∧ rest.head? = some '/'
      · rw [if_neg h1, if_pos h2, if_pos hx] at h; simp at h
      · rw [if_neg h1, if_pos h2, if_neg hx] at h; simp at h
    · by_cases h3 : st.inString = true
      · by_cases hb : c = '\\'
        · rw [if_neg h1, if_neg h2, if_pos h3, if_pos hb] at h; simp at h
        · by_cases hq : c = st.stringChar
          · rw [if_neg h1, if_neg h2, if_pos h3, if_neg hb, if_pos hq] at h
            simp at h
          · rw [if_neg h1, if_neg h2, if_pos h3, if_neg hb, if_neg hq] at h
            simp at h
      · by_cases h4 : c = '\x27' ∨ c = '\x22' ∨ c = '\x60'
        · rw [if_neg h1, if_neg h2, if_neg h3, if_pos h4] at h; simp at h
        · by_cases h7 : c = '\x7d' ∨ c = ')' ∨ c = ']'
          · have hslash : ¬ c = '/' := by
              rcases h7 with h7 | h7 | h7 <;> simp [h7]
            have hopen : ¬ (c = '\x7b' ∨ c = '(' ∨ c = '[') := by
              rcases h7 with h7 | h7 | h7 <;> simp [h7]
            rw [if_neg h1, if_neg h2, if_neg h3, if_neg h4,
              if_neg (fun hx => hslash hx.1), if_neg (fun hx => hslash hx.1),
              if_neg hopen, if_pos h7] at h
            rw [if_neg h1, if_neg h2, if_neg h3, if_neg h4,
              if_neg (fun hx => hslash hx.1), if_neg (fun hx => hslash hx.1),
              if_neg hopen, if_pos h7]
            exact h
          · by_cases h5 : c = '/' ∧ rest.head? = some '/'
            · rw [if_neg h1, if_neg h2, if_neg h3, if_neg h4, if_pos h5] at h
              simp at h
            · by_cases h6 : c = '/' ∧ rest.head? = some '*'
              · rw [if_neg h1, if_neg h2, if_neg h3, if_neg h4, if_neg h5,
                  if_pos h6] at h
                simp at h
              · by_cases h8 : c = '\x7b' ∨ c = '(' ∨ c = '['
                · rw [if_neg h1, if_neg h2, if_neg h3, if_neg h4, if_neg h5,
                    if_neg h6, if_pos h8] at h
                  simp at h
                · rw [if_neg h1, if_neg h2, if_neg h3, if_neg h4, if_neg h5,
                    if_neg h6, if_neg h8, if_neg h7] at h
                  simp at h

/-- Unfolding: a halting body halts the line scan. -/
theorem scanLine_cons_error {i : Nat} {c : Char} {rest : List Char} {j : Nat}
    {st : ScanState} {r : Result} (hstep : stepChar i c rest j st = .error r) :
    scanLine i (c :: rest) j st = .error r := by
  rw [scanLine, hstep]

/-- Unfolding: a body consuming one character continues at the next one. -/
theorem scanLine_cons_ok1 {i : Nat} {c : Char} {rest : List Char} {j : Nat}
    {st st' : ScanState} (hstep : stepChar i c rest j st = .ok (st', 1)) :
    scanLine i (c :: rest) j st = scanLine i rest (j + 1) st' := by
  rw [scanLine, hstep]; rfl

/-- Unfolding: a body consuming two characters skips the next one. -/
theorem scanLine_cons_ok2 {i : Nat} {c d : Char} {rest2 : List Char} {j : Nat}
    {st st' : ScanState}
    (hstep : stepChar i c (d :: rest2) j st = .ok (st', 2)) :
    scanLine i (c :: d :: rest2) j st = scanLine i rest2 (j + 2) st' := by
  rw [scanLine, hstep]; rfl

/-- Unfolding: a body consuming two characters at the last character of the
line ends the loop. -/
theorem scanLine_cons_ok2_nil {i : Nat} {c : Char} {j : Nat}
    {st st' : ScanState} (hstep : stepChar i c [] j st = .ok (st', 2)) :
    scanLine i [c] j st = .ok st' := by
  rw [scanLine, hstep]; rfl

/-- Bounded-length version: a halting diagnostic raised while scanning a
line is preserved when further characters are appended to the line (the
scan halted before ever reaching them). -/
theorem scanLine_append_error (i : Nat) :
    ∀ (k : Nat) (l l' : List Char), l.length ≤ k →
      ∀ (j : Nat) (st : ScanState) (r : Result),
        scanLine i l j st = .error r → scanLine i (l ++ l') j st = .error r := by
  intro k
  induction k with
  | zero =>
    intro l l' hk j st r h
    cases l with
    | nil => simp [scanLine] at h
    | cons c rest => simp at hk
  | succ k ihk =>
    intro l l' hk j st r h
    cases l with
    | nil => simp [scanLine] at h
    | cons c rest =>
      cases hstep : stepChar i c rest j st with
      | error r0 =>
        rw [scanLine_cons_error hstep] at h
        show scanLine i (c :: (rest ++ l')) j st = .error r
        rw [scanLine_cons_error (stepChar_error_rest hstep (rest ++ l'))]
        exact h
      | ok p =>
        obtain ⟨st', n⟩ := p
        rcases stepChar_consumed hstep with hn | hn <;> subst hn
        · rw [scanLine_cons_ok1 hstep] at h
          cases rest with
          | nil => simp [scanLine] at h
          | cons d rest2 =>
            have hstep' : stepChar i c (d :: (rest2 ++ l')) j st = .ok (st', 1) :=
              (stepChar_congr i c d (rest2 ++ l') rest2 j st).trans hstep
            show scanLine i (c :: d :: (rest2 ++ l')) j st = .error r
            rw [scanLine_cons_ok1 hstep']
            exact ihk (d :: rest2) l'
              (by simp only [List.length_cons] at hk ⊢; omega) (j + 1) st' r h
        · cases rest with
          | nil =>
            rw [scanLine_cons_ok2_nil hstep] at h
            simp at h
          | cons d rest2 =>
            rw [scanLine_cons_ok2 hstep] at h
            have hstep' : stepChar i c (d :: (rest2 ++ l')) j st = .ok (st', 2) :=
              (stepChar_congr i c d (rest2 ++ l') rest2 j st).trans hstep
            show scanLine i (c :: d :: (rest2 ++ l')) j st = .error r
            rw [scanLine_cons_ok2 hstep']
            exact ihk rest2 l'
              (by simp only [List.length_cons] at hk ⊢; omega) (j + 2) st' r h

/-- A halting diagnostic raised while scanning a line is preserved when
further characters are appended to the line. -/
theorem scanLine_append_of_error (i : Nat) (l l' : List Char) (j : Nat)
    (st : ScanState) (r : Result) (h : scanLine i l j st = .error r) :
    scanLine i (l ++ l') j st = .error r :=
  scanLine_append_error i l.length l l' le_rfl j st r h

/-- A halting diagnostic raised while scanning a list of lines is preserved
when further lines are appended (the scan halted before reaching them). -/
theorem scanLines_append_of_error :
    ∀ (ls ls' : List (List Char)) (i : Nat) (st : ScanState) (r : Result),
      scanLines ls i st = .error r → scanLines (ls ++ ls') i st = .error r := by
  intro ls
  induction ls with
  | nil => intro ls' i st r h; simp [scanLines] at h
  | cons l rest ih =>
    intro ls' i st r h
    rw [scanLines] at h
    show scanLines (l :: (rest ++ ls')) i st = .error r
    rw [scanLines]
    cases hline : scanLine i l 0 st with
    | error r0 => rw [hline] at h; exact h
    | ok st' => rw [hline] at h; exact ih ls' (i + 1) _ r h

/-- Claim C1 (refuted — code bug): the claim and the specification say that
on `/` followed by `*` in Normal mode both characters are consumed, so the
`*` that opened the comment can never double as the start of the closing
`*/` and in particular `/*/` leaves the block comment open.  The source
(line 57) instead advances only one character (`j += 1; continue`), so the
`*` is re-examined in block-comment mode, `/*/` closes the comment at the
overlapping `*/`, and a following `\x7b` is scanned in Normal mode: the
code reports it as an unclosed opener, where the claim requires `Ok`. -/
theorem C1_block_comment_opener_reexamined :
    scan "/*/\x7b" = .unclosedOpener ('\x7b', 1, 4) 1 [('\x7b', 1, 4)] := by
  decide

/-- Claim C9: the scan is a pure function of the input text, so two
invocations on the same text yield identical results; in the embedding
`scan` is a function with no state outside its argument, and determinism
is definitional. -/
theorem C9_scan_deterministic (s : String) : scan s = scan s := rfl

/-- Witness for C9 at a concrete input. -/
theorem C9_scan_deterministic_witness : scan "(x)" = scan "(x)" :=
  C9_scan_deterministic "(x)"

/-- Claim C4: a closing delimiter scanned in Normal mode with an empty
stack halts the scan immediately with `UnexpectedCloser` carrying the
character and its 1-based line and column; in particular `scan ")"` is
`UnexpectedCloser ')' 1 1`. -/
theorem C4_unexpected_closer :
    (∀ (i j : Nat) (c : Char) (rest : List Char) (st : ScanState),
        inNormal st → isCloser c → st.stack = [] →
        stepChar i c rest j st = .error (.unexpectedCloser c (i + 1) (j + 1))) ∧
    scan ")" = .unexpectedCloser ')' 1 1 := by
  constructor
  · intro i j c rest st hn hc hs
    obtain ⟨hS, hC, hM⟩ := hn
    have hq : ¬ (c = '\x27' ∨ c = '\x22' ∨ c = '\x60') := by
      rcases hc with hc | hc | hc <;> simp [hc]
    have hslash : c ≠ '/' := by rcases hc with hc | hc | hc <;> simp [hc]
    have hopen : ¬ (c = '\x7b' ∨ c = '(' ∨ c = '[') := by
      rcases hc with hc | hc | hc <;> simp [hc]
    unfold stepChar
    rw [if_neg (by simp [hC]), if_neg (by simp [hM]), if_neg (by simp [hS]),
      if_neg hq, if_neg (fun hx => hslash hx.1), if_neg (fun hx => hslash hx.1),
      if_neg hopen,
      if_pos (show c = '\x7d' ∨ c = ')' ∨ c = ']' from hc), hs]
    rfl
  · decide

/-- Witness for C4 at the concrete input of the claim: a `)` at line 1,
column 1 with an empty stack. -/
theorem C4_unexpected_closer_witness :
    stepChar 0 ')' [] 0 initState = .error (.unexpectedCloser ')' 1 1) :=
  C4_unexpected_closer.1 0 0 ')' [] initState ⟨rfl, rfl, rfl⟩
    (Or.inr (Or.inl rfl)) rfl

/-- Claim C5: in string mode a backslash skips the following character
unconditionally (two characters consumed, state unchanged, so the escaped
character never ends the string, never opens a mode and never touches the
stack), the string ends exactly on an unescaped occurrence of the quote
character, and no other character scanned in string mode changes anything;
in particular `scan` of the text `"\x7b("` (delimiters inside a
double-quoted string) is `Ok`. -/
theorem C5_string_mode :
    (∀ (i j : Nat) (c : Char) (rest : List Char) (st : ScanState),
        st.inString = true → st.inComment = false →
        st.inMultilineComment = false →
        stepChar i c rest j st =
          if c = '\\' then .ok (st, 2)
          else if c = st.stringChar then .ok ({ st with inString := false }, 1)
          else .ok (st, 1)) ∧
    scan "\x22\x7b(\x22" = .ok := by
  constructor
  · intro i j c rest st hS hC hM
    unfold stepChar
    rw [if_neg (by simp [hC]), if_neg (by simp [hM]), if_pos hS]
  · decide

/-- Witness for C5: a backslash inside a double-quoted string skips the
next character and changes nothing else. -/
theorem C5_string_mode_witness :
    stepChar 0 '\\' ['\x7d'] 2
      { stack := [], inString := true, stringChar := '\x22',
        inComment := false, inMultilineComment := false } =
      .ok ({ stack := [], inString := true, stringChar := '\x22',
             inComment := false, inMultilineComment := false }, 2) :=
  C5_string_mode.1 0 2 '\\' ['\x7d']
    { stack := [], inString := true, stringChar := '\x22',
      inComment := false, inMultilineComment := false } rfl rfl rfl

/-- Claim C10: a backslash that is the last character of a line while in
string mode does not extend the escape across the line boundary: it ends
the line scan with the state unchanged (still in the same string mode),
and the first character of the next line is scanned in string mode, so a
quote character at column 1 of the next line ends the string. -/
theorem C10_escape_not_crossing_lines (q : Char) (st : ScanState)
    (i i' j : Nat) (rest : List Char)
    (hq : q = '\x27' ∨ q = '\x22' ∨ q = '\x60')
    (hS : st.inString = true) (hsc : st.stringChar = q)
    (hC : st.inComment = false) (hM : st.inMultilineComment = false) :
    scanLine i ['\\'] j st = .ok st ∧
    scanLine i' (q :: rest) 0 st =
      scanLine i' rest 1 { st with inString := false } := by
  have hb : q ≠ '\\' := by rcases hq with h | h | h <;> simp [h]
  constructor
  · have hstep : stepChar i '\\' [] j st = .ok (st, 2) := by
      unfold stepChar
      rw [if_neg (by simp [hC]), if_neg (by simp [hM]), if_pos hS, if_pos rfl]
    exact scanLine_cons_ok2_nil hstep
  · have hstep : stepChar i' q rest 0 st =
        .ok ({ st with inString := false }, 1) := by
      unfold stepChar
      rw [if_neg (by simp [hC]), if_neg (by simp [hM]), if_pos hS,
        if_neg hb, if_pos hsc.symm]
    exact scanLine_cons_ok1 hstep

/-- Witness for C10: a line-final backslash inside a double-quoted string,
then a closing quote at column 1 of the next line. -/
theorem C10_escape_not_crossing_lines_witness :
    scanLine 0 ['\\'] 1
      { stack := [], inString := true, stringChar := '\x22',
        inComment := false, inMultilineComment := false } =
      .ok { stack := [], inString := true, stringChar := '\x22',
            inComment := false, inMultilineComment := false } ∧
    scanLine 1 ['\x22', '('] 0
      { stack := [], inString := true, stringChar := '\x22',
        inComment := false, inMultilineComment := false } =
      scanLine 1 ['('] 1
        { stack := [], inString := false, stringChar := '\x22',
          inComment := false, inMultilineComment := false } :=
  C10_escape_not_crossing_lines '\x22'
    { stack := [], inString := true, stringChar := '\x22',
      inComment := false, inMultilineComment := false }
    0 1 1 ['('] (Or.inr (Or.inl rfl)) rfl rfl rfl rfl

/-- When the scan of all lines completes without halting, `check_balance`
applies the end-of-input policy to the final stack. -/
theorem check_balance_of_ok {lines : List (List Char)} {st : ScanState}
    (h : scanLines lines 0 initState = .ok st) :
    check_balance lines =
      match st.stack with
      | [] => .ok
      | first :: _ =>
        .unclosedOpener first st.stack.length
          (st.stack.drop (st.stack.length - 5)) := by
  unfold check_balance
  rw [h]

/-- Claim C2: after all lines are consumed with no halting diagnostic, an
empty stack yields `Ok`; a non-empty stack yields `UnclosedOpener` whose
primary frame is the bottom (oldest) frame of the stack, whose total count
is the number of frames still on the stack, and whose supplementary list
is the suffix of the `min 5 totalCount` most recently opened frames. -/
theorem C2_end_of_input (lines : List (List Char)) (st : ScanState)
    (h : scanLines lines 0 initState = .ok st) :
    (st.stack = [] → check_balance lines = .ok) ∧
    (∀ fr tail, st.stack = fr :: tail →
      check_balance lines =
        .unclosedOpener fr st.stack.length
          (st.stack.drop (st.stack.length - 5)) ∧
      (st.stack.drop (st.stack.length - 5)).length = min 5 st.stack.length ∧
      st.stack.take (st.stack.length - 5) ++
        st.stack.drop (st.stack.length - 5) = st.stack) := by
  constructor
  · intro hnil
    rw [check_balance_of_ok h, hnil]
  · intro fr tail hstack
    refine ⟨?_, ?_, List.take_append_drop _ _⟩
    · rw [check_balance_of_ok h, hstack]
    · rw [List.length_drop]
      omega

/-- Witness for C2 at the claim's concrete input `scan("\x7b\x7b\x7b")`:
three unclosed braces, primary frame at line 1 column 1, all three frames
in the supplementary list. -/
theorem C2_end_of_input_witness :
    check_balance [['\x7b', '\x7b', '\x7b']] =
      .unclosedOpener ('\x7b', 1, 1) 3
        [('\x7b', 1, 1), ('\x7b', 1, 2), ('\x7b', 1, 3)] :=
  ((C2_end_of_input [['\x7b', '\x7b', '\x7b']]
      { stack := [('\x7b', 1, 1), ('\x7b', 1, 2), ('\x7b', 1, 3)],
        inString := false, stringChar := ' ',
        inComment := false, inMultilineComment := false }
      rfl).2 ('\x7b', 1, 1) [('\x7b', 1, 2), ('\x7b', 1, 3)] rfl).1

/-- Claim C3: a closing delimiter scanned in Normal mode with a non-empty
stack pops the top frame; when the popped opener's expected closer (via
`\x7b`→`\x7d`, `(`→`)`, `[`→`]`) differs from the scanned character the
scan halts with `MismatchedCloser` carrying the found character, its
1-based line and column, the expected closer, and the opener's character,
1-based line and column; in particular `scan "(]"` yields
`MismatchedCloser ']' 1 2 ')' '(' 1 1`. -/
theorem C3_mismatched_closer :
    (∀ (i j : Nat) (c : Char) (rest : List Char) (st : ScanState) (fr : Frame),
        inNormal st → isCloser c → st.stack.getLast? = some fr →
        stepChar i c rest j st =
          if c = expectedCloser fr.1 then
            .ok ({ st with stack := st.stack.dropLast }, 1)
          else
            .error (.mismatchedCloser c (i + 1) (j + 1)
              (expectedCloser fr.1) fr.1 fr.2.1 fr.2.2)) ∧
    scan "(]" = .mismatchedCloser ']' 1 2 ')' '(' 1 1 := by
  constructor
  · intro i j c rest st fr hn hc hlast
    obtain ⟨hS, hC, hM⟩ := hn
    have hq : ¬ (c = '\x27' ∨ c = '\x22' ∨ c = '\x60') := by
      rcases hc with hc | hc | hc <;> simp [hc]
    have hslash : c ≠ '/' := by rcases hc with hc | hc | hc <;> simp [hc]
    have hopen : ¬ (c = '\x7b' ∨ c = '(' ∨ c = '[') := by
      rcases hc with hc | hc | hc <;> simp [hc]
    unfold stepChar
    rw [if_neg (by simp [hC]), if_neg (by simp [hM]), if_neg (by simp [hS]),
      if_neg hq, if_neg (fun hx => hslash hx.1), if_neg (fun hx => hslash hx.1),
      if_neg hopen,
      if_pos (show c = '\x7d' ∨ c = ')' ∨ c = ']' from hc), hlast]
    show (if c ≠ expectedCloser fr.1 then
          Except.error (Result.mismatchedCloser c (i + 1) (j + 1)
            (expectedCloser fr.1) fr.1 fr.2.1 fr.2.2)
        else Except.ok ({ st with stack := st.stack.dropLast }, 1)) = _
    by_cases he : c = expectedCloser fr.1
    · rw [if_neg (not_not_intro he), if_pos he]
    · rw [if_pos he, if_neg he]
  · decide

/-- Witness for C3 at the claim's concrete scenario from `scan("(]")`: the
`]` at line 1 column 2 closing the `(` opened at line 1 column 1. -/
theorem C3_mismatched_closer_witness :
    stepChar 0 ']' [] 1
      { stack := [('(', 1, 1)], inString := false, stringChar := ' ',
        inComment := false, inMultilineComment := false } =
      .error (.mismatchedCloser ']' 1 2 ')' '(' 1 1) :=
  C3_mismatched_closer.1 0 1 ']' []
    { stack := [('(', 1, 1)], inString := false, stringChar := ' ',
      inComment := false, inMultilineComment := false }
    ('(', 1, 1) ⟨rfl, rfl, rfl⟩ (Or.inr (Or.inr rfl)) rfl

/-- Claim C6: once `in_comment` is set the rest of the current line is
consumed with no effect other than clearing the flag at the last character
of the line; the flag is also cleared at every line boundary, so every
line starts outside line-comment mode, even an empty one; in particular
`scan "// \x7b\nfoo"` is `Ok`. -/
theorem C6_line_comment :
    (∀ (i : Nat) (l : List Char) (j : Nat) (st : ScanState),
        st.inComment = true →
        scanLine i l j st =
          .ok (if l.isEmpty then st else { st with inComment := false })) ∧
    (∀ (i : Nat) (l : List Char) (ls : List (List Char)) (st st' : ScanState),
        scanLine i l 0 st = .ok st' →
        scanLines (l :: ls) i st =
          scanLines ls (i + 1) { st' with inComment := false }) ∧
    scan "// \x7b\nfoo" = .ok := by
  refine ⟨fun i l j st h => scanLine_inComment i l j st h, ?_, by decide⟩
  intro i l ls st st' h
  rw [scanLines, h]

/-- Witness for C6: the remainder `x\x7b` of a line in line-comment mode is
ignored, with the flag cleared at the line's last character. -/
theorem C6_line_comment_witness :
    scanLine 0 ['x', '\x7b'] 2
      { stack := [], inString := false, stringChar := ' ',
        inComment := true, inMultilineComment := false } =
      .ok { stack := [], inString := false, stringChar := ' ',
            inComment := false, inMultilineComment := false } :=
  C6_line_comment.1 0 ['x', '\x7b'] 2
    { stack := [], inString := false, stringChar := ' ',
      inComment := true, inMultilineComment := false } rfl

/-- Claim C7: a halting diagnostic (`UnexpectedCloser` or
`MismatchedCloser`) is decided by the text up to its position only: once
raised, appending further characters to the offending line or further
lines to the input leaves the reported diagnostic unchanged, so the
earliest detectable violation in left-to-right, top-to-bottom scan order
always wins and no later diagnostic is ever reported. -/
theorem C7_first_error_wins :
    (∀ (i : Nat) (l l' : List Char) (j : Nat) (st : ScanState) (r : Result),
        scanLine i l j st = .error r → scanLine i (l ++ l') j st = .error r) ∧
    (∀ (ls ls' : List (List Char)) (i : Nat) (st : ScanState) (r : Result),
        scanLines ls i st = .error r →
        scanLines (ls ++ ls') i st = .error r) :=
  ⟨scanLine_append_of_error, scanLines_append_of_error⟩

/-- Witness for C7: the unexpected `)` at line 1 column 1 is still the
diagnostic after a line with two more errors is appended. -/
theorem C7_first_error_wins_witness :
    scanLines ([[')']] ++ [[']', ')']]) 0 initState =
      .error (.unexpectedCloser ')' 1 1) :=
  C7_first_error_wins.2 [[')']] [[']', ')']] 0 initState
    (.unexpectedCloser ')' 1 1) rfl

/-- Claim C8: one scan step changes the stack in exactly the way the
claimed invariant requires: an opening delimiter scanned in Normal mode
appends exactly one frame recording its kind and 1-based line and column
at the innermost end; a closing delimiter scanned in Normal mode (when the
step does not halt) removes exactly the innermost frame, whose expected
closer it matches; every other step — non-delimiter characters, and
everything scanned in string or comment mode — leaves the stack unchanged.
Iterated from the empty initial stack, this is the invariant that the
stack holds one frame per still-open delimiter, outermost first. -/
theorem C8_stack_invariant_step (i j n : Nat) (c : Char) (rest : List Char)
    (st st' : ScanState) (h : stepChar i c rest j st = .ok (st', n)) :
    (inNormal st → isOpener c →
      st'.stack = st.stack ++ [(c, i + 1, j + 1)]) ∧
    (inNormal st → isCloser c →
      ∃ fr, st.stack = st'.stack ++ [fr] ∧ expectedCloser fr.1 = c) ∧
    ((¬ inNormal st ∨ (¬ isOpener c ∧ ¬ isCloser c)) →
      st'.stack = st.stack) := by
  refine ⟨?_, ?_, ?_⟩
  · rintro ⟨hS, hC, hM⟩ hop
    have hq : ¬ (c = '\x27' ∨ c = '\x22' ∨ c = '\x60') := by
      rcases hop with hx | hx | hx <;> simp [hx]
    have hslash : c ≠ '/' := by rcases hop with hx | hx | hx <;> simp [hx]
    unfold stepChar at h
    rw [if_neg (by simp [hC]), if_neg (by simp [hM]), if_neg (by simp [hS]),
      if_neg hq, if_neg (fun hx => hslash hx.1), if_neg (fun hx => hslash hx.1),
      if_pos (show c = '\x7b' ∨ c = '(' ∨ c = '[' from hop)] at h
    simp only [Except.ok.injEq, Prod.mk.injEq] at h
    rw [← h.1]
  · rintro ⟨hS, hC, hM⟩ hcl
    have hq : ¬ (c = '\x27' ∨ c = '\x22' ∨ c = '\x60') := by
      rcases hcl with hx | hx | hx <;> simp [hx]
    have hslash : c ≠ '/' := by rcases hcl with hx | hx | hx <;> simp [hx]
    have hopen : ¬ (c = '\x7b' ∨ c = '(' ∨ c = '[') := by
      rcases hcl with hx | hx | hx <;> simp [hx]
    unfold stepChar at h
    rw [if_neg (by simp [hC]), if_neg (by simp [hM]), if_neg (by simp [hS]),
      if_neg hq, if_neg (fun hx => hslash hx.1), if_neg (fun hx => hslash hx.1),
      if_neg hopen,
      if_pos (show c = '\x7d' ∨ c = ')' ∨ c = ']' from hcl)] at h
    cases hlast : st.stack.getLast? with
    | none => rw [hlast] at h; simp at h
    | some fr =>
      rw [hlast] at h
      have h' : (if c ≠ expectedCloser fr.1 then
            Except.error (Result.mismatchedCloser c (i + 1) (j + 1)
              (expectedCloser fr.1) fr.1 fr.2.1 fr.2.2)
          else Except.ok ({ st with stack := st.stack.dropLast }, 1)) =
          Except.ok (st', n) := h
      clear h
      by_cases he : c ≠ expectedCloser fr.1
      · rw [if_pos he] at h'; simp at h'
      · rw [if_neg he] at h'
        simp only [Except.ok.injEq, Prod.mk.injEq] at h'
        push_neg at he
        have hne : st.stack ≠ [] := by
          intro hnil; rw [hnil] at hlast; simp at hlast
        have hgl : st.stack.getLast hne = fr := by
          have h2 := List.getLast?_eq_getLast st.stack hne
          rw [h2] at hlast
          injection hlast with h3
        refine ⟨fr, ?_, he.symm⟩
        rw [← h'.1]
        show st.stack = st.stack.dropLast ++ [fr]
        rw [← hgl, List.dropLast_append_getLast hne]
  · intro hcase
    unfold stepChar at h
    by_cases h1 : st.inComment = true
    · rw [if_pos h1] at h
      simp only [Except.ok.injEq, Prod.mk.injEq] at h
      rw [← h.1]
      split <;> rfl
    · by_cases h2 : st.inMultilineComment = true
      · rw [if_neg h1, if_pos h2] at h
        by_cases hx : c = '*' ∧ rest.head? = some '/'
        · rw [if_pos hx] at h
          simp only [Except.ok.injEq, Prod.mk.injEq] at h
          rw [← h.1]
        · rw [if_neg hx] at h
          simp only [Except.ok.injEq, Prod.mk.injEq] at h
          rw [← h.1]
      · by_cases h3 : st.inString = true
        · rw [if_neg h1, if_neg h2, if_pos h3] at h
          by_cases hb : c = '\\'
          · rw [if_pos hb] at h
            simp only [Except.ok.injEq, Prod.mk.injEq] at h
            rw [← h.1]
          · by_cases hqc : c = st.stringChar
            · rw [if_neg hb, if_pos hqc] at h
              simp only [Except.ok.injEq, Prod.mk.injEq] at h
              rw [← h.1]
            · rw [if_neg hb, if_neg hqc] at h
              simp only [Except.ok.injEq, Prod.mk.injEq] at h
              rw [← h.1]
        · have hdelims : ¬ isOpener c ∧ ¬ isCloser c := by
            rcases hcase with hcase | hcase
            · exact absurd ⟨by simp [h3], by simp [h1], by simp [h2]⟩ hcase
            · exact hcase
          rw [if_neg h1, if_neg h2, if_neg h3] at h
          by_cases h4 : c = '\x27' ∨ c = '\x22' ∨ c = '\x60'
          · rw [if_pos h4] at h
            simp only [Except.ok.injEq, Prod.mk.injEq] at h
            rw [← h.1]
          · rw [if_neg h4] at h
            by_cases h5 : c = '/' ∧ rest.head? = some '/'
            · rw [if_pos h5] at h
              simp only [Except.ok.injEq, Prod.mk.injEq] at h
              rw [← h.1]
            · rw [if_neg h5] at h
              by_cases h6 : c = '/' ∧ rest.head? = some '*'
              · rw [if_pos h6] at h
                simp only [Except.ok.injEq, Prod.mk.injEq] at h
                rw [← h.1]
              · rw [if_neg h6,
                  if_neg (show ¬ (c = '\x7b' ∨ c = '(' ∨ c = '[') from hdelims.1),
                  if_neg (show ¬ (c = '\x7d' ∨ c = ')' ∨ c = ']') from hdelims.2)] at h
                simp only [Except.ok.injEq, Prod.mk.injEq] at h
                rw [← h.1]

/-- Witness for C8: an opening parenthesis scanned in Normal mode from the
initial state pushes exactly the frame `('(', 1, 1)`. -/
theorem C8_stack_invariant_step_witness :
    ({ initState with stack := [('(', 1, 1)] } : ScanState).stack =
      initState.stack ++ [('(', 1, 1)] :=
  (C8_stack_invariant_step 0 0 1 '(' [] initState
      { initState with stack := [('(', 1, 1)] } rfl).1
    ⟨rfl, rfl, rfl⟩ (Or.inr (Or.inl rfl))

end CheckSyntax
